import Mathlib

/-!
Shallow embedding of `ensure_thumbnails` from `zerver/worker/thumbnail.py`
(the thumbnail worker of the zulip repository), together with the data
model it operates on.

External collaborators (pyvips resizing, the blob store, the content-type
lookup, the storage-path function) are modelled as an explicit environment
of oracle functions; the control flow of `ensure_thumbnails` itself is a
direct translation of the Python source.  Side effects on durable state
(fetching the original, uploads, attachment deletion, metadata persistence)
are recorded as an explicit event trace.
-/

/-- A catalogue entry, mirroring `ThumbnailFormat` fields used by the worker:
extension, bounding box, animated flag and encoder options. -/
structure ThumbnailFormat where
  extension : String
  max_width : Nat
  max_height : Nat
  animated : Bool
  opts : String
deriving DecidableEq, Repr

/-- One produced derivative's metadata, mirroring `StoredThumbnailFormat`. -/
structure StoredThumbnailFormat where
  extension : String
  content_type : String
  max_width : Nat
  max_height : Nat
  animated : Bool
  width : Nat
  height : Nat
  byte_size : Nat
deriving DecidableEq, Repr

/-- The `ImageAttachment` record as the worker sees it. -/
structure ImageAttachment where
  id : Nat
  original_width_px : Nat
  original_height_px : Nat
  frames : Nat
  path_id : String
  thumbnail_metadata : List StoredThumbnailFormat
deriving DecidableEq, Repr

/-- The result of `pyvips.Image.thumbnail_buffer` followed by
`write_to_buffer`: the resized image's dimensions, its `page-height`
metadata, and the encoded byte length. -/
structure ResizedImage where
  width : Nat
  height : Nat
  pageHeight : Nat
  byteSize : Nat
deriving DecidableEq, Repr

/-- Propagating (uncaught) exceptions of the pipeline: an upload failure
from `upload_message_attachment`, or the `assert content_type is not None`
firing on a `guess_type` miss. -/
inductive RunError where
  | uploadFailure
  | contentTypeMiss
deriving DecidableEq, Repr

/-- Observable side effects of one run, in order of occurrence. -/
inductive Event where
  | fetchOriginal (pathId : String)
  | upload (path : String) (contentType : String) (byteSize : Nat)
  | deleteAttachment (id : Nat)
  | persistMetadata (id : Nat) (metadata : List StoredThumbnailFormat)
      (updateFields : List String)
deriving DecidableEq, Repr

/-- `true` exactly on durable-record writes (persist or delete). -/
def Event.isPersistOrDelete : Event → Bool
  | .persistMetadata _ _ _ => true
  | .deleteAttachment _ => true
  | _ => false

/-- `true` exactly on `persistMetadata` events. -/
def Event.isPersist : Event → Bool
  | .persistMetadata _ _ _ => true
  | _ => false

/-- The environment of external collaborators:
the fixed catalogue, the pyvips resize+encode step (`none` models
`pyvips.Error`, the decode/resize failure), `guess_type`,
`get_image_thumbnail_path`, and the blob-store upload
(`false` models an upload failure, which raises). -/
structure PipelineEnv where
  catalogue : List ThumbnailFormat
  thumbnailResult : String → ThumbnailFormat → Option ResizedImage
  guessType : String → Option String
  thumbPath : ImageAttachment → ThumbnailFormat → String
  uploadOk : String → String → Nat → Bool

/-- Does a stored entry satisfy a catalogue entry?  Matching is on the
(extension, max_width, max_height, animated) tuple. -/
def matchesFormat (s : StoredThumbnailFormat) (f : ThumbnailFormat) : Bool :=
  s.extension == f.extension && s.max_width == f.max_width &&
    s.max_height == f.max_height && s.animated == f.animated

/-- Modelled from the spec: `missing_thumbnails` lives in
`zerver/lib/thumbnail.py`, which is not part of the sources; spec §4.1
says: for each catalogue entry, include it unless an entry with the same
(extension, max_width, max_height, animated) already exists in
`thumbnail_metadata`, keeping catalogue order. -/
def missing_thumbnails (catalogue : List ThumbnailFormat)
    (att : ImageAttachment) : List ThumbnailFormat :=
  catalogue.filter fun f => !(att.thumbnail_metadata.any fun s => matchesFormat s f)

/-- The `option_string` passed to `thumbnail_buffer`, translated from the
`load_opts` computation in `ensure_thumbnails`: empty for single-frame
sources, `n=-1` (all frames) for animated targets, `n=1` (first frame)
otherwise. -/
def loadOpts (frames : Nat) (f : ThumbnailFormat) : String :=
  if frames > 1 then (if f.animated then "n=-1" else "n=1") else ""

/-- The `StoredThumbnailFormat` built for one successful resize+upload,
translated from the `asdict(StoredThumbnailFormat(...))` call: format
fields copied from the catalogue entry, `width` from the resized image,
`height` from `page-height` for animated outputs and from the image's
height otherwise. -/
def storedOf (f : ThumbnailFormat) (ct : String) (img : ResizedImage) :
    StoredThumbnailFormat :=
  { extension := f.extension
    content_type := ct
    max_width := f.max_width
    max_height := f.max_height
    animated := f.animated
    width := img.width
    height := if f.animated then img.pageHeight else img.height
    byte_size := img.byteSize }

/-- The loop accumulator: thumbnails written so far this run, the
attachment's in-memory `thumbnail_metadata` list, and the event trace. -/
structure LoopState where
  written : Nat
  metadata : List StoredThumbnailFormat
  events : List Event
deriving DecidableEq, Repr

/-- How the `for thumbnail_format in needed_thumbnails` loop ends:
normally, with a caught `pyvips.Error`, or with a propagating exception. -/
inductive LoopOut where
  | ok (s : LoopState)
  | decodeFail (s : LoopState)
  | exn (e : RunError) (s : LoopState)
deriving DecidableEq, Repr

/-- The accumulator state at loop exit, whatever the exit mode. -/
def LoopOut.state : LoopOut → LoopState
  | .ok s => s
  | .decodeFail s => s
  | .exn _ s => s

/-- The body of the `for` loop in `ensure_thumbnails`, one format at a
time: resize (a `pyvips.Error` ends the loop as `decodeFail`), look up the
content type (`assert content_type is not None` raises on a miss), upload
(a failure raises), then append the new metadata entry and continue. -/
def processFormats (env : PipelineEnv) (att : ImageAttachment) :
    List ThumbnailFormat → LoopState → LoopOut
  | [], s => .ok s
  | f :: rest, s =>
    match env.thumbnailResult (loadOpts att.frames f) f with
    | none => .decodeFail s
    | some img =>
      match env.guessType ("image." ++ f.extension) with
      | none => .exn .contentTypeMiss s
      | some ct =>
        let path := env.thumbPath att f
        let ev := Event.upload path ct img.byteSize
        if env.uploadOk path ct img.byteSize then
          processFormats env att rest
            { written := s.written + 1
              metadata := s.metadata ++ [storedOf f ct img]
              events := s.events ++ [ev] }
        else
          .exn .uploadFailure { s with events := s.events ++ [ev] }

/-- The accumulator at loop entry: nothing written, the attachment's
current metadata, and the single `save_attachment_contents` fetch already
performed. -/
def initState (att : ImageAttachment) : LoopState :=
  { written := 0
    metadata := att.thumbnail_metadata
    events := [Event.fetchOriginal att.path_id] }

instance {ε α : Type} [DecidableEq ε] [DecidableEq α] :
    DecidableEq (Except ε α) := fun a b =>
  match a, b with
  | Except.ok x, Except.ok y =>
      if h : x = y then isTrue (congrArg Except.ok h)
      else isFalse (fun hc => h (Except.ok.inj hc))
  | Except.error x, Except.error y =>
      if h : x = y then isTrue (congrArg Except.error h)
      else isFalse (fun hc => h (Except.error.inj hc))
  | Except.ok _, Except.error _ => isFalse (fun hc => Except.noConfusion hc)
  | Except.error _, Except.ok _ => isFalse (fun hc => Except.noConfusion hc)

/-- The outcome of one `ensure_thumbnails` run: the returned count or a
propagating exception, the attachment's durable state afterwards (`none`
when the record was deleted), and the event trace. -/
structure RunResult where
  outcome : Except RunError Nat
  attachment : Option ImageAttachment
  events : List Event
deriving DecidableEq, Repr

/-- `ensure_thumbnails`, translated from `zerver/worker/thumbnail.py`:
compute the needed formats, return 0 with no I/O when none are needed;
otherwise fetch the original once and run the format loop.  On a caught
`pyvips.Error` with nothing written and empty metadata, delete the
attachment and return 0; otherwise persist `thumbnail_metadata` (only that
field) and return the number written.  Propagating exceptions leave the
durable record untouched (the surrounding transaction aborts). -/
def ensure_thumbnails (env : PipelineEnv) (att : ImageAttachment) : RunResult :=
  let needed := missing_thumbnails env.catalogue att
  if needed.isEmpty then
    { outcome := Except.ok 0, attachment := some att, events := [] }
  else
    match processFormats env att needed (initState att) with
    | .ok s =>
        { outcome := Except.ok s.written
          attachment := some { att with thumbnail_metadata := s.metadata }
          events := s.events ++
            [Event.persistMetadata att.id s.metadata ["thumbnail_metadata"]] }
    | .decodeFail s =>
        if s.written = 0 ∧ s.metadata.length = 0 then
          { outcome := Except.ok 0, attachment := none
            events := s.events ++ [Event.deleteAttachment att.id] }
        else
          { outcome := Except.ok s.written
            attachment := some { att with thumbnail_metadata := s.metadata }
            events := s.events ++
              [Event.persistMetadata att.id s.metadata ["thumbnail_metadata"]] }
    | .exn e s =>
        { outcome := Except.error e, attachment := some att, events := s.events }

/-- Rounding division: `roundDiv p q` is `p / q` rounded half-up, i.e.
`⌊p / q + 1 / 2⌋` computed in integer arithmetic. -/
def roundDiv (p q : Nat) : Nat :=
  (2 * p + q) / (2 * q)

/-- Modelled from the spec: the output dimensions of
`pyvips.Image.thumbnail_buffer(..., size=pyvips.Size.DOWN)` (pyvips is an
external library).  Spec §4.2(b) and the glossary: scale preserving aspect
ratio so that the result fits within the `maxW × maxH` box, never
enlarging beyond the source's own dimensions.  The scale factor is
`min (maxW / W) (maxH / H)` capped at 1; comparisons and the rounding of
the scaled dimensions are carried out in integer arithmetic
(`maxW / W ≤ maxH / H` iff `maxW * H ≤ maxH * W`). -/
def vipsThumbnailDims (W H maxW maxH : Nat) : Nat × Nat :=
  if maxW * H ≤ maxH * W then
    if W ≤ maxW then (W, H)
    else (maxW, roundDiv (H * maxW) W)
  else
    if H ≤ maxH then (W, H)
    else (roundDiv (W * maxH) H, maxH)

/-! ## Concrete fixtures

A small concrete instantiation of the environment, following the scenario
of spec §8: catalogue `[{jpg,100,100,false},{webp,100,100,true}]`, source
50×200 with a single frame. -/

/-- The static jpg catalogue entry of the §8 scenario. -/
def fmtJpg : ThumbnailFormat := ⟨"jpg", 100, 100, false, "Q=90"⟩

/-- The animated webp catalogue entry of the §8 scenario. -/
def fmtWebp : ThumbnailFormat := ⟨"webp", 100, 100, true, ""⟩

/-- The §8 scenario catalogue. -/
def catalogue0 : List ThumbnailFormat := [fmtJpg, fmtWebp]

/-- A concrete `guess_type` covering the §8 catalogue's extensions. -/
def guessType0 : String → Option String := fun s =>
  if s = "image.jpg" then some "image/jpeg"
  else if s = "image.webp" then some "image/webp"
  else none

/-- A concrete deterministic `get_image_thumbnail_path`. -/
def thumbPath0 : ImageAttachment → ThumbnailFormat → String := fun att f =>
  att.path_id ++ "/" ++ toString f.max_width ++ "x" ++ toString f.max_height ++
    (if f.animated then "-anim" else "") ++ "." ++ f.extension

/-- The §8 scenario source: 50×200, single frame, no derivatives yet. -/
def att0 : ImageAttachment := ⟨7, 50, 200, 1, "orig/p", []⟩

/-- A resize oracle for a healthy single-frame 50×200 source. -/
def resize0 : String → ThumbnailFormat → Option ResizedImage := fun _ f =>
  let d := vipsThumbnailDims 50 200 f.max_width f.max_height
  some ⟨d.1, d.2, d.2, 1234⟩

/-- Healthy environment: resizes succeed, uploads succeed. -/
def env0 : PipelineEnv :=
  ⟨catalogue0, resize0, guessType0, thumbPath0, fun _ _ _ => true⟩

/-- Corrupt-source environment: every resize raises `pyvips.Error`. -/
def envBad : PipelineEnv :=
  ⟨catalogue0, fun _ _ => none, guessType0, thumbPath0, fun _ _ _ => true⟩

/-- Failing blob store: every upload fails. -/
def envUploadFail : PipelineEnv :=
  ⟨catalogue0, resize0, guessType0, thumbPath0, fun _ _ _ => false⟩

/-- The loop state after the fully successful §8 run. -/
def okState0 : LoopState :=
  (processFormats env0 att0 (missing_thumbnails env0.catalogue att0)
    (initState att0)).state

/-- The attachment as the successful §8 run leaves it. -/
def attOut0 : ImageAttachment := { att0 with thumbnail_metadata := okState0.metadata }

/-- The first derivative produced by the §8 run. -/
def entry0 : StoredThumbnailFormat :=
  ⟨"jpg", "image/jpeg", 100, 100, false, 25, 100, 1234⟩

/-- An attachment with one pre-existing jpg derivative. -/
def attPre : ImageAttachment := { att0 with thumbnail_metadata := [entry0] }

/-- The loop state at which the failing-upload run raises. -/
def exnState0 : LoopState :=
  (processFormats envUploadFail att0
    (missing_thumbnails envUploadFail.catalogue att0) (initState att0)).state

/-! ## Invariants of the format loop -/

/-- Everything one run of the format loop can do to the accumulator:
the metadata list is extended by a list `new` of freshly built entries
(one per fully processed format, in processing order, each recording the
resize oracle's output for its format under the computed load options),
`written` grows by exactly `new.length`, and the only events added are
uploads — never a persist or a delete. -/
theorem processFormats_extend (env : PipelineEnv) (att : ImageAttachment) :
    ∀ (l : List ThumbnailFormat) (s : LoopState),
      ∃ new : List StoredThumbnailFormat,
        (processFormats env att l s).state.metadata = s.metadata ++ new ∧
        (processFormats env att l s).state.written = s.written + new.length ∧
        new.length ≤ l.length ∧
        (∀ s', processFormats env att l s = LoopOut.ok s' →
          new.length = l.length) ∧
        (∀ i (hi : i < new.length), ∃ (hl : i < l.length)
            (img : ResizedImage) (ct : String),
          env.thumbnailResult (loadOpts att.frames l[i]) l[i] = some img ∧
          env.guessType ("image." ++ l[i].extension) = some ct ∧
          new[i] = storedOf l[i] ct img) ∧
        ∃ evs : List Event,
          (processFormats env att l s).state.events = s.events ++ evs ∧
          ∀ e ∈ evs, e.isPersistOrDelete = false := by
  intro l
  induction l with
  | nil =>
    intro s
    refine ⟨[], by simp [processFormats, LoopOut.state], ?_, ?_, ?_, ?_, [], ?_, ?_⟩
    · simp [processFormats, LoopOut.state]
    · simp
    · simp
    · intro i hi; simp at hi
    · simp [processFormats, LoopOut.state]
    · simp
  | cons f rest ih =>
    intro s
    cases hres : env.thumbnailResult (loadOpts att.frames f) f with
    | none =>
      refine ⟨[], ?_, ?_, ?_, ?_, ?_, [], ?_, ?_⟩
      · simp [processFormats, hres, LoopOut.state]
      · simp [processFormats, hres, LoopOut.state]
      · simp
      · intro s' hs'; simp [processFormats, hres] at hs'
      · intro i hi; simp at hi
      · simp [processFormats, hres, LoopOut.state]
      · simp
    | some img =>
      cases hct : env.guessType ("image." ++ f.extension) with
      | none =>
        refine ⟨[], ?_, ?_, ?_, ?_, ?_, [], ?_, ?_⟩
        · simp [processFormats, hres, hct, LoopOut.state]
        · simp [processFormats, hres, hct, LoopOut.state]
        · simp
        · intro s' hs'; simp [processFormats, hres, hct] at hs'
        · intro i hi; simp at hi
        · simp [processFormats, hres, hct, LoopOut.state]
        · simp
      | some ct =>
        cases hup : env.uploadOk (env.thumbPath att f) ct img.byteSize with
        | false =>
          refine ⟨[], ?_, ?_, ?_, ?_, ?_,
            [Event.upload (env.thumbPath att f) ct img.byteSize], ?_, ?_⟩
          · simp [processFormats, hres, hct, hup, LoopOut.state]
          · simp [processFormats, hres, hct, hup, LoopOut.state]
          · simp
          · intro s' hs'; simp [processFormats, hres, hct, hup] at hs'
          · intro i hi; simp at hi
          · simp [processFormats, hres, hct, hup, LoopOut.state]
          · simp [Event.isPersistOrDelete]
        | true =>
          obtain ⟨new, hmeta, hwrit, hlen, hok, hidx, evs, hev, hevp⟩ :=
            ih { written := s.written + 1
                 metadata := s.metadata ++ [storedOf f ct img]
                 events := s.events ++
                   [Event.upload (env.thumbPath att f) ct img.byteSize] }
          have hstep : processFormats env att (f :: rest) s =
              processFormats env att rest
                { written := s.written + 1
                  metadata := s.metadata ++ [storedOf f ct img]
                  events := s.events ++
                    [Event.upload (env.thumbPath att f) ct img.byteSize] } := by
            simp [processFormats, hres, hct, hup]
          refine ⟨storedOf f ct img :: new, ?_, ?_, ?_, ?_, ?_,
            Event.upload (env.thumbPath att f) ct img.byteSize :: evs, ?_, ?_⟩
          · rw [hstep, hmeta]; simp
          · rw [hstep, hwrit]; simp; omega
          · simpa using Nat.succ_le_succ hlen
          · intro s' hs'
            rw [hstep] at hs'
            simpa using hok s' hs'
          · intro i hi
            cases i with
            | zero =>
              exact ⟨by simp, img, ct, by simpa using hres, by simpa using hct,
                by simp⟩
            | succ j =>
              have hj : j < new.length := by simpa using hi
              obtain ⟨hl, img', ct', h1, h2, h3⟩ := hidx j hj
              exact ⟨by simpa using Nat.succ_lt_succ hl, img', ct',
                by simpa using h1, by simpa using h2, by simpa using h3⟩
          · rw [hstep, hev]; simp
          · intro e he
            rcases List.mem_cons.mp he with h | h
            · subst h; rfl
            · exact hevp e h

/-- A freshly built entry satisfies its own catalogue entry. -/
theorem matchesFormat_storedOf (f : ThumbnailFormat) (ct : String)
    (img : ResizedImage) : matchesFormat (storedOf f ct img) f = true := by
  simp [matchesFormat, storedOf]

/-- An event that is not a durable-record write is not a persist. -/
theorem isPersist_false_of_not_pord (e : Event)
    (h : e.isPersistOrDelete = false) : e.isPersist = false := by
  cases e <;> simp_all [Event.isPersistOrDelete, Event.isPersist]

/-- The format loop over no formats succeeds and changes nothing. -/
theorem processFormats_nil (env : PipelineEnv) (att : ImageAttachment)
    (s : LoopState) : processFormats env att [] s = LoopOut.ok s := rfl

/-! ## The claims -/

/-- C1: if a decode failure (`pyvips.Error`) occurs during
`ensure_thumbnails`, zero thumbnails were written in this run, and
`thumbnail_metadata` was empty before the run started, then the attachment
record is deleted, no metadata is persisted, and the function returns 0. -/
theorem c1_virgin_decode_failure_deletes (env : PipelineEnv)
    (att : ImageAttachment) (s : LoopState)
    (hpre : att.thumbnail_metadata = [])
    (hrun : processFormats env att (missing_thumbnails env.catalogue att)
      (initState att) = LoopOut.decodeFail s)
    (hw : s.written = 0) :
    (ensure_thumbnails env att).attachment = none ∧
    (ensure_thumbnails env att).outcome = Except.ok 0 ∧
    Event.deleteAttachment att.id ∈ (ensure_thumbnails env att).events ∧
    ∀ e ∈ (ensure_thumbnails env att).events, e.isPersist = false := by
  obtain ⟨new, hmeta, hwrit, -, -, -, evs, hev, hevp⟩ :=
    processFormats_extend env att (missing_thumbnails env.catalogue att)
      (initState att)
  rw [hrun] at hmeta hwrit hev
  simp only [LoopOut.state] at hmeta hwrit hev
  simp only [initState] at hmeta hwrit hev
  have hnew : new = [] := by
    apply List.length_eq_zero.mp
    omega
  have hsm : s.metadata = [] := by rw [hmeta, hnew, hpre]; rfl
  have hne : (missing_thumbnails env.catalogue att).isEmpty = false := by
    cases hmt : missing_thumbnails env.catalogue att with
    | nil => rw [hmt, processFormats_nil] at hrun; exact absurd hrun (by simp)
    | cons a as => rfl
  have hres : ensure_thumbnails env att =
      { outcome := Except.ok 0, attachment := none,
        events := s.events ++ [Event.deleteAttachment att.id] } := by
    simp [ensure_thumbnails, hne, hrun, hw, hsm]
  refine ⟨by rw [hres], by rw [hres], by rw [hres]; simp, ?_⟩
  intro e he
  rw [hres] at he
  simp only [List.mem_append, List.mem_singleton] at he
  rcases he with he | he
  · rw [hev] at he
    rcases List.mem_append.mp he with he | he
    · simp only [List.mem_singleton] at he
      rw [he]; rfl
    · exact isPersist_false_of_not_pord e (hevp e he)
  · rw [he]; rfl

/-- Witness for C1: the corrupt-source environment on a never-thumbnailed
attachment. -/
theorem c1_witness :
    (ensure_thumbnails envBad att0).attachment = none ∧
    (ensure_thumbnails envBad att0).outcome = Except.ok 0 ∧
    Event.deleteAttachment att0.id ∈ (ensure_thumbnails envBad att0).events ∧
    ∀ e ∈ (ensure_thumbnails envBad att0).events, e.isPersist = false :=
  c1_virgin_decode_failure_deletes envBad att0 (initState att0) rfl
    (by decide) rfl

/-- C2: a decode failure partway through the format loop, when the
attachment had a pre-existing derivative or some thumbnails were already
written this run, keeps the attachment record, ends the metadata field at
its pre-run value plus exactly the newly written prefix (unchanged when
zero were written), persists that metadata, and returns the number written
before the failure. -/
theorem c2_partial_failure_keeps_prefix (env : PipelineEnv)
    (att : ImageAttachment) (s : LoopState)
    (hrun : processFormats env att (missing_thumbnails env.catalogue att)
      (initState att) = LoopOut.decodeFail s)
    (hkeep : att.thumbnail_metadata ≠ [] ∨ 0 < s.written) :
    ∃ new : List StoredThumbnailFormat,
      s.metadata = att.thumbnail_metadata ++ new ∧
      new.length = s.written ∧
      (s.written = 0 → s.metadata = att.thumbnail_metadata) ∧
      (ensure_thumbnails env att).attachment =
        some { att with thumbnail_metadata := s.metadata } ∧
      (ensure_thumbnails env att).outcome = Except.ok s.written ∧
      Event.persistMetadata att.id s.metadata ["thumbnail_metadata"] ∈
        (ensure_thumbnails env att).events := by
  obtain ⟨new, hmeta, hwrit, -, -, -, evs, hev, hevp⟩ :=
    processFormats_extend env att (missing_thumbnails env.catalogue att)
      (initState att)
  rw [hrun] at hmeta hwrit hev
  simp only [LoopOut.state, initState] at hmeta hwrit hev
  have hne : (missing_thumbnails env.catalogue att).isEmpty = false := by
    cases hmt : missing_thumbnails env.catalogue att with
    | nil => rw [hmt, processFormats_nil] at hrun; exact absurd hrun (by simp)
    | cons a as => rfl
  have hcond : ¬(s.written = 0 ∧ s.metadata.length = 0) := by
    rcases hkeep with h | h
    · rintro ⟨h0, hl⟩
      rw [hmeta, List.length_append] at hl
      exact h (List.length_eq_zero.mp (by omega))
    · rintro ⟨h0, hl⟩
      omega
  have hres : ensure_thumbnails env att =
      { outcome := Except.ok s.written,
        attachment := some { att with thumbnail_metadata := s.metadata },
        events := s.events ++
          [Event.persistMetadata att.id s.metadata ["thumbnail_metadata"]] } := by
    simp only [ensure_thumbnails, hne, Bool.false_eq_true, if_false, hrun]
    rw [if_neg hcond]
  refine ⟨new, hmeta, by omega, ?_, by rw [hres], by rw [hres],
    by rw [hres]; simp⟩
  intro h0
  have hn : new = [] := List.length_eq_zero.mp (by omega)
  rw [hmeta, hn]
  simp

/-- Witness for C2: the corrupt-source environment on an attachment that
already has one derivative; the record survives with metadata unchanged. -/
theorem c2_witness :
    ∃ new : List StoredThumbnailFormat,
      (initState attPre).metadata = attPre.thumbnail_metadata ++ new ∧
      new.length = (initState attPre).written ∧
      ((initState attPre).written = 0 →
        (initState attPre).metadata = attPre.thumbnail_metadata) ∧
      (ensure_thumbnails envBad attPre).attachment =
        some { attPre with thumbnail_metadata := (initState attPre).metadata } ∧
      (ensure_thumbnails envBad attPre).outcome =
        Except.ok (initState attPre).written ∧
      Event.persistMetadata attPre.id (initState attPre).metadata
          ["thumbnail_metadata"] ∈
        (ensure_thumbnails envBad attPre).events :=
  c2_partial_failure_keeps_prefix envBad attPre (initState attPre) rfl
    (Or.inl (by decide))

/-- C3: after a fully successful run, the missing-format resolver returns
the empty sequence on the resulting attachment, and a second call of
`ensure_thumbnails` on that attachment returns 0 with no thumbnails newly
written and no I/O. -/
theorem c3_idempotent_after_success (env : PipelineEnv)
    (att : ImageAttachment) (s : LoopState)
    (hrun : processFormats env att (missing_thumbnails env.catalogue att)
      (initState att) = LoopOut.ok s) :
    missing_thumbnails env.catalogue
      { att with thumbnail_metadata := s.metadata } = [] ∧
    ensure_thumbnails env { att with thumbnail_metadata := s.metadata } =
      { outcome := Except.ok 0,
        attachment := some { att with thumbnail_metadata := s.metadata },
        events := [] } := by
  obtain ⟨new, hmeta, hwrit, hlen, hok, hidx, evs, hev, hevp⟩ :=
    processFormats_extend env att (missing_thumbnails env.catalogue att)
      (initState att)
  rw [hrun] at hmeta hwrit hev
  simp only [LoopOut.state, initState] at hmeta hwrit hev
  have hfull : new.length = (missing_thumbnails env.catalogue att).length :=
    hok s hrun
  have hcover : ∀ f ∈ env.catalogue,
      (s.metadata.any fun t => matchesFormat t f) = true := by
    intro f hf
    by_cases hp : (att.thumbnail_metadata.any fun t => matchesFormat t f) = true
    · rcases List.any_eq_true.mp hp with ⟨t, ht, hmt⟩
      rw [hmeta]
      exact List.any_eq_true.mpr ⟨t, List.mem_append_left _ ht, hmt⟩
    · have hp2 : (att.thumbnail_metadata.any fun t => matchesFormat t f) = false :=
        Bool.eq_false_iff.mpr hp
      have hmem : f ∈ missing_thumbnails env.catalogue att :=
        List.mem_filter.mpr ⟨hf, by simp [hp2]⟩
      rcases List.getElem_of_mem hmem with ⟨i, hi, hfi⟩
      have hi2 : i < new.length := by omega
      obtain ⟨hl, img, ct, h1, h2, h3⟩ := hidx i hi2
      rw [hfi] at h3
      rw [hmeta]
      refine List.any_eq_true.mpr
        ⟨new[i], List.mem_append_right _ (List.getElem_mem hi2), ?_⟩
      rw [h3]
      exact matchesFormat_storedOf f ct img
  have hmiss : missing_thumbnails env.catalogue
      { att with thumbnail_metadata := s.metadata } = [] := by
    unfold missing_thumbnails
    rw [List.filter_eq_nil_iff]
    intro f hf
    simp [hcover f hf]
  exact ⟨hmiss, by simp [ensure_thumbnails, hmiss]⟩

/-- Witness for C3: the fully successful §8 scenario run; its output
attachment needs nothing and a second call is a no-op returning 0. -/
theorem c3_witness :
    missing_thumbnails env0.catalogue
      { att0 with thumbnail_metadata := okState0.metadata } = [] ∧
    ensure_thumbnails env0 { att0 with thumbnail_metadata := okState0.metadata } =
      { outcome := Except.ok 0,
        attachment := some { att0 with thumbnail_metadata := okState0.metadata },
        events := [] } :=
  c3_idempotent_after_success env0 att0 okState0 rfl

/-- C4: an upload failure, or a content-type lookup miss for a catalogue
extension, is not caught by `ensure_thumbnails`: it propagates out of the
pipeline, the durable attachment record is unchanged, and no persist (and
no delete) of the record happens in that run. -/
theorem c4_uncaught_exceptions_propagate (env : PipelineEnv)
    (att : ImageAttachment) (e : RunError) (s : LoopState)
    (hrun : processFormats env att (missing_thumbnails env.catalogue att)
      (initState att) = LoopOut.exn e s) :
    (ensure_thumbnails env att).outcome = Except.error e ∧
    (ensure_thumbnails env att).attachment = some att ∧
    ∀ ev ∈ (ensure_thumbnails env att).events,
      ev.isPersistOrDelete = false := by
  obtain ⟨new, hmeta, hwrit, -, -, -, evs, hev, hevp⟩ :=
    processFormats_extend env att (missing_thumbnails env.catalogue att)
      (initState att)
  rw [hrun] at hev
  simp only [LoopOut.state, initState] at hev
  have hne : (missing_thumbnails env.catalogue att).isEmpty = false := by
    cases hmt : missing_thumbnails env.catalogue att with
    | nil => rw [hmt, processFormats_nil] at hrun; exact absurd hrun (by simp)
    | cons a as => rfl
  have hres : ensure_thumbnails env att =
      { outcome := Except.error e, attachment := some att,
        events := s.events } := by
    simp only [ensure_thumbnails, hne, Bool.false_eq_true, if_false, hrun]
  refine ⟨by rw [hres], by rw [hres], ?_⟩
  intro ev hevm
  rw [hres] at hevm
  simp only at hevm
  rw [hev] at hevm
  rcases List.mem_append.mp hevm with h | h
  · simp only [List.mem_singleton] at h
    rw [h]; rfl
  · exact hevp ev h

/-- Witness for C4: the failing blob store aborts the §8 run with an
upload failure and nothing is persisted. -/
theorem c4_witness :
    (ensure_thumbnails envUploadFail att0).outcome =
      Except.error RunError.uploadFailure ∧
    (ensure_thumbnails envUploadFail att0).attachment = some att0 ∧
    ∀ ev ∈ (ensure_thumbnails envUploadFail att0).events,
      ev.isPersistOrDelete = false :=
  c4_uncaught_exceptions_propagate envUploadFail att0 RunError.uploadFailure
    exnState0 rfl

/-- `roundDiv` is monotone in the dividend. -/
theorem roundDiv_le_roundDiv {p r : Nat} (q : Nat) (h : p ≤ r) :
    roundDiv p q ≤ roundDiv r q :=
  Nat.div_le_div_right (by omega)

/-- Rounding an exact multiple recovers the factor. -/
theorem roundDiv_mul (a q : Nat) (hq : 0 < q) : roundDiv (a * q) q = a := by
  unfold roundDiv
  have h1 : 2 * (a * q) + q = q * (2 * a + 1) := by ring
  have h2 : 2 * q = q * 2 := by ring
  rw [h1, h2, Nat.mul_div_mul_left _ _ hq]
  omega

/-- C5: the modelled resize fits the image within the `maxW × maxH` box
and never upscales; in particular, when the source already fits the box in
both dimensions the output dimensions equal the source's exactly. -/
theorem c5_resize_fits_never_upscales (W H maxW maxH : Nat)
    (hW : 0 < W) (hH : 0 < H) :
    (vipsThumbnailDims W H maxW maxH).1 ≤ maxW ∧
    (vipsThumbnailDims W H maxW maxH).2 ≤ maxH ∧
    (vipsThumbnailDims W H maxW maxH).1 ≤ W ∧
    (vipsThumbnailDims W H maxW maxH).2 ≤ H ∧
    (W ≤ maxW → H ≤ maxH → vipsThumbnailDims W H maxW maxH = (W, H)) := by
  unfold vipsThumbnailDims
  by_cases hb : maxW * H ≤ maxH * W
  · rw [if_pos hb]
    by_cases hw2 : W ≤ maxW
    · rw [if_pos hw2]
      have hmw : 0 < maxW := lt_of_lt_of_le hW hw2
      have hH2 : H ≤ maxH := by
        have h1 : maxW * H ≤ maxW * maxH := by
          calc maxW * H ≤ maxH * W := hb
          _ ≤ maxH * maxW := Nat.mul_le_mul_left maxH hw2
          _ = maxW * maxH := Nat.mul_comm _ _
        exact Nat.le_of_mul_le_mul_left h1 hmw
      exact ⟨hw2, hH2, le_refl _, le_refl _, fun _ _ => rfl⟩
    · rw [if_neg hw2]
      push_neg at hw2
      have h2a : roundDiv (H * maxW) W ≤ maxH := by
        have hhb : H * maxW ≤ maxH * W := by rw [Nat.mul_comm]; exact hb
        calc roundDiv (H * maxW) W ≤ roundDiv (maxH * W) W :=
              roundDiv_le_roundDiv W hhb
        _ = maxH := roundDiv_mul maxH W hW
      have h2b : roundDiv (H * maxW) W ≤ H := by
        have hhw : H * maxW ≤ H * W := Nat.mul_le_mul_left H (le_of_lt hw2)
        calc roundDiv (H * maxW) W ≤ roundDiv (H * W) W :=
              roundDiv_le_roundDiv W hhw
        _ = H := roundDiv_mul H W hW
      exact ⟨le_refl _, h2a, le_of_lt hw2, h2b,
        fun hcon _ => absurd hcon (by omega)⟩
  · rw [if_neg hb]
    push_neg at hb
    by_cases hh2 : H ≤ maxH
    · rw [if_pos hh2]
      have hmh : 0 < maxH := lt_of_lt_of_le hH hh2
      have hW2 : W ≤ maxW := by
        have h1 : maxH * W < maxH * maxW := by
          calc maxH * W < maxW * H := hb
          _ ≤ maxW * maxH := Nat.mul_le_mul_left maxW hh2
          _ = maxH * maxW := Nat.mul_comm _ _
        exact le_of_lt (Nat.lt_of_mul_lt_mul_left h1)
      exact ⟨hW2, hh2, le_refl _, le_refl _, fun _ _ => rfl⟩
    · rw [if_neg hh2]
      push_neg at hh2
      have h1a : roundDiv (W * maxH) H ≤ maxW := by
        have hwb : W * maxH ≤ maxW * H := by
          rw [Nat.mul_comm]; exact le_of_lt hb
        calc roundDiv (W * maxH) H ≤ roundDiv (maxW * H) H :=
              roundDiv_le_roundDiv H hwb
        _ = maxW := roundDiv_mul maxW H hH
      have h1b : roundDiv (W * maxH) H ≤ W := by
        have hwh : W * maxH ≤ W * H := Nat.mul_le_mul_left W (le_of_lt hh2)
        calc roundDiv (W * maxH) H ≤ roundDiv (W * H) H :=
              roundDiv_le_roundDiv H hwh
        _ = W := roundDiv_mul W H hH
      exact ⟨h1a, le_refl _, h1b, le_of_lt hh2,
        fun _ hcon => absurd hcon (by omega)⟩

/-- Witness for C5: a 50×80 source in a 100×100 box keeps its exact
dimensions. -/
theorem c5_witness :
    (vipsThumbnailDims 50 80 100 100).1 ≤ 100 ∧
    (vipsThumbnailDims 50 80 100 100).2 ≤ 100 ∧
    (vipsThumbnailDims 50 80 100 100).1 ≤ 50 ∧
    (vipsThumbnailDims 50 80 100 100).2 ≤ 80 ∧
    (50 ≤ 100 → 80 ≤ 100 → vipsThumbnailDims 50 80 100 100 = (50, 80)) :=
  c5_resize_fits_never_upscales 50 80 100 100 (by decide) (by decide)

/-- Full case analysis of one `ensure_thumbnails` run: nothing needed,
full success, virgin decode failure (delete), partial decode failure
(keep), or a propagating exception. -/
theorem ensure_thumbnails_cases (env : PipelineEnv) (att : ImageAttachment) :
    (missing_thumbnails env.catalogue att = [] ∧
      ensure_thumbnails env att =
        { outcome := Except.ok 0, attachment := some att, events := [] }) ∨
    (∃ s, processFormats env att (missing_thumbnails env.catalogue att)
        (initState att) = LoopOut.ok s ∧
      ensure_thumbnails env att =
        { outcome := Except.ok s.written,
          attachment := some { att with thumbnail_metadata := s.metadata },
          events := s.events ++
            [Event.persistMetadata att.id s.metadata
              ["thumbnail_metadata"]] }) ∨
    (∃ s, processFormats env att (missing_thumbnails env.catalogue att)
        (initState att) = LoopOut.decodeFail s ∧
      s.written = 0 ∧ s.metadata.length = 0 ∧
      ensure_thumbnails env att =
        { outcome := Except.ok 0, attachment := none,
          events := s.events ++ [Event.deleteAttachment att.id] }) ∨
    (∃ s, processFormats env att (missing_thumbnails env.catalogue att)
        (initState att) = LoopOut.decodeFail s ∧
      ¬(s.written = 0 ∧ s.metadata.length = 0) ∧
      ensure_thumbnails env att =
        { outcome := Except.ok s.written,
          attachment := some { att with thumbnail_metadata := s.metadata },
          events := s.events ++
            [Event.persistMetadata att.id s.metadata
              ["thumbnail_metadata"]] }) ∨
    (∃ e s, processFormats env att (missing_thumbnails env.catalogue att)
        (initState att) = LoopOut.exn e s ∧
      ensure_thumbnails env att =
        { outcome := Except.error e, attachment := some att,
          events := s.events }) := by
  by_cases hemp : (missing_thumbnails env.catalogue att).isEmpty = true
  · left
    have h0 : missing_thumbnails env.catalogue att = [] :=
      List.isEmpty_iff.mp hemp
    exact ⟨h0, by simp [ensure_thumbnails, h0]⟩
  · have hne : (missing_thumbnails env.catalogue att).isEmpty = false :=
      Bool.eq_false_iff.mpr hemp
    cases hout : processFormats env att (missing_thumbnails env.catalogue att)
      (initState att) with
    | ok s =>
      right; left
      exact ⟨s, rfl, by
        simp only [ensure_thumbnails, hne, Bool.false_eq_true, if_false, hout]⟩
    | decodeFail s =>
      by_cases hc : s.written = 0 ∧ s.metadata.length = 0
      · right; right; left
        refine ⟨s, rfl, hc.1, hc.2, ?_⟩
        simp only [ensure_thumbnails, hne, Bool.false_eq_true, if_false, hout]
        rw [if_pos hc]
      · right; right; right; left
        refine ⟨s, rfl, hc, ?_⟩
        simp only [ensure_thumbnails, hne, Bool.false_eq_true, if_false, hout]
        rw [if_neg hc]
    | exn e s =>
      right; right; right; right
      exact ⟨e, s, rfl, by
        simp only [ensure_thumbnails, hne, Bool.false_eq_true, if_false, hout]⟩

/-- C7: every metadata entry a run of `ensure_thumbnails` leaves on a
surviving attachment is either a pre-existing entry or records, for some
needed format, the resize result: the recorded width is the resized
image's width, and the recorded height is the multi-frame page height for
animated formats and the single image's height otherwise. -/
theorem c7_recorded_dimensions (env : PipelineEnv)
    (att att2 : ImageAttachment) (e : StoredThumbnailFormat)
    (hA : (ensure_thumbnails env att).attachment = some att2)
    (hm : e ∈ att2.thumbnail_metadata) :
    e ∈ att.thumbnail_metadata ∨
    ∃ (f : ThumbnailFormat) (img : ResizedImage) (ct : String),
      f ∈ missing_thumbnails env.catalogue att ∧
      env.thumbnailResult (loadOpts att.frames f) f = some img ∧
      env.guessType ("image." ++ f.extension) = some ct ∧
      e = storedOf f ct img ∧
      e.width = img.width ∧
      e.height = (if f.animated = true then img.pageHeight
        else img.height) := by
  obtain ⟨new, hmeta, hwrit, hlen, hok, hidx, evs, hev, hevp⟩ :=
    processFormats_extend env att (missing_thumbnails env.catalogue att)
      (initState att)
  have hfresh : e ∈ new →
      ∃ (f : ThumbnailFormat) (img : ResizedImage) (ct : String),
        f ∈ missing_thumbnails env.catalogue att ∧
        env.thumbnailResult (loadOpts att.frames f) f = some img ∧
        env.guessType ("image." ++ f.extension) = some ct ∧
        e = storedOf f ct img ∧
        e.width = img.width ∧
        e.height = (if f.animated = true then img.pageHeight
          else img.height) := by
    intro h
    rcases List.getElem_of_mem h with ⟨i, hi, hei⟩
    obtain ⟨hl, img, ct, h1, h2, h3⟩ := hidx i hi
    refine ⟨(missing_thumbnails env.catalogue att)[i], img, ct,
      List.getElem_mem hl, h1, h2, ?_, ?_, ?_⟩
    · rw [← hei, h3]
    · rw [← hei, h3]; rfl
    · rw [← hei, h3]; rfl
  rcases ensure_thumbnails_cases env att with
    ⟨h0, hres⟩ | ⟨s, hout, hres⟩ | ⟨s, hout, hw0, hm0, hres⟩ |
    ⟨s, hout, hc, hres⟩ | ⟨e2, s, hout, hres⟩
  · rw [hres] at hA
    simp only [Option.some.injEq] at hA
    rw [← hA] at hm
    exact Or.inl hm
  · rw [hres] at hA
    simp only [Option.some.injEq] at hA
    rw [← hA] at hm
    simp only at hm
    rw [hout] at hmeta
    simp only [LoopOut.state, initState] at hmeta
    rw [hmeta] at hm
    rcases List.mem_append.mp hm with h | h
    · exact Or.inl h
    · exact Or.inr (hfresh h)
  · rw [hres] at hA
    simp at hA
  · rw [hres] at hA
    simp only [Option.some.injEq] at hA
    rw [← hA] at hm
    simp only at hm
    rw [hout] at hmeta
    simp only [LoopOut.state, initState] at hmeta
    rw [hmeta] at hm
    rcases List.mem_append.mp hm with h | h
    · exact Or.inl h
    · exact Or.inr (hfresh h)
  · rw [hres] at hA
    simp only [Option.some.injEq] at hA
    rw [← hA] at hm
    exact Or.inl hm

/-- Witness for C7: the jpg derivative produced by the §8 run records the
resized 25×100 dimensions. -/
theorem c7_witness :
    entry0 ∈ att0.thumbnail_metadata ∨
    ∃ (f : ThumbnailFormat) (img : ResizedImage) (ct : String),
      f ∈ missing_thumbnails env0.catalogue att0 ∧
      env0.thumbnailResult (loadOpts att0.frames f) f = some img ∧
      env0.guessType ("image." ++ f.extension) = some ct ∧
      entry0 = storedOf f ct img ∧
      entry0.width = img.width ∧
      entry0.height = (if f.animated = true then img.pageHeight
        else img.height) :=
  c7_recorded_dimensions env0 att0 attOut0 entry0 (by decide) (by decide)

/-- C8: when the missing-format resolver returns the empty sequence,
`ensure_thumbnails` returns 0 immediately with an empty event trace: no
fetch of the original, no upload, no persist, no delete. -/
theorem c8_empty_needed_no_io (env : PipelineEnv) (att : ImageAttachment)
    (h : missing_thumbnails env.catalogue att = []) :
    ensure_thumbnails env att =
      { outcome := Except.ok 0, attachment := some att, events := [] } := by
  simp [ensure_thumbnails, h]

/-- Witness for C8: the attachment left by the successful §8 run needs
nothing, so a run on it performs no I/O at all. -/
theorem c8_witness :
    ensure_thumbnails env0 attOut0 =
      { outcome := Except.ok 0, attachment := some attOut0, events := [] } :=
  c8_empty_needed_no_io env0 attOut0 (by decide)

/-- C9: a run that completes normally without deleting the attachment
leaves every non-metadata field of the record unchanged, makes every
persist event update only the `thumbnail_metadata` field (carrying the
final metadata), and returns exactly the number of thumbnails newly
written (the growth of the metadata list). -/
theorem c9_persists_only_metadata (env : PipelineEnv)
    (att att2 : ImageAttachment) (n : Nat)
    (h1 : (ensure_thumbnails env att).outcome = Except.ok n)
    (h2 : (ensure_thumbnails env att).attachment = some att2) :
    att2.id = att.id ∧
    att2.original_width_px = att.original_width_px ∧
    att2.original_height_px = att.original_height_px ∧
    att2.frames = att.frames ∧
    att2.path_id = att.path_id ∧
    att.thumbnail_metadata.length + n = att2.thumbnail_metadata.length ∧
    ∀ ev ∈ (ensure_thumbnails env att).events, ev.isPersist = true →
      ev = Event.persistMetadata att.id att2.thumbnail_metadata
        ["thumbnail_metadata"] := by
  obtain ⟨new, hmeta, hwrit, hlen, hok, hidx, evs, hev, hevp⟩ :=
    processFormats_extend env att (missing_thumbnails env.catalogue att)
      (initState att)
  rcases ensure_thumbnails_cases env att with
    ⟨h0, hres⟩ | ⟨s, hout, hres⟩ | ⟨s, hout, hw0, hm0, hres⟩ |
    ⟨s, hout, hc, hres⟩ | ⟨e2, s, hout, hres⟩
  · rw [hres] at h1 h2
    simp only [Option.some.injEq] at h2
    simp only [Except.ok.injEq] at h1
    subst h2
    refine ⟨rfl, rfl, rfl, rfl, rfl, by omega, ?_⟩
    intro ev hevm
    rw [hres] at hevm
    simp at hevm
  · rw [hout] at hmeta hwrit hev
    simp only [LoopOut.state, initState] at hmeta hwrit hev
    rw [hres] at h1 h2
    simp only [Option.some.injEq] at h2
    simp only [Except.ok.injEq] at h1
    subst h2
    refine ⟨rfl, rfl, rfl, rfl, rfl, ?_, ?_⟩
    · simp only [List.length_append, hmeta]
      omega
    · intro ev hevm hp
      rw [hres] at hevm
      simp only at hevm
      rw [hev] at hevm
      rcases List.mem_append.mp hevm with h | h
      · rcases List.mem_append.mp h with h2 | h2
        · simp only [List.mem_singleton] at h2
          subst h2
          simp [Event.isPersist] at hp
        · have hf := isPersist_false_of_not_pord ev (hevp ev h2)
          rw [hf] at hp
          exact absurd hp Bool.false_ne_true
      · simp only [List.mem_singleton] at h
        subst h
        rfl
  · rw [hres] at h2
    simp at h2
  · rw [hout] at hmeta hwrit hev
    simp only [LoopOut.state, initState] at hmeta hwrit hev
    rw [hres] at h1 h2
    simp only [Option.some.injEq] at h2
    simp only [Except.ok.injEq] at h1
    subst h2
    refine ⟨rfl, rfl, rfl, rfl, rfl, ?_, ?_⟩
    · simp only [List.length_append, hmeta]
      omega
    · intro ev hevm hp
      rw [hres] at hevm
      simp only at hevm
      rw [hev] at hevm
      rcases List.mem_append.mp hevm with h | h
      · rcases List.mem_append.mp h with h2 | h2
        · simp only [List.mem_singleton] at h2
          subst h2
          simp [Event.isPersist] at hp
        · have hf := isPersist_false_of_not_pord ev (hevp ev h2)
          rw [hf] at hp
          exact absurd hp Bool.false_ne_true
      · simp only [List.mem_singleton] at h
        subst h
        rfl
  · rw [hres] at h1
    simp at h1

/-- Witness for C9: the successful §8 run returns 2, grows the metadata
by 2, and persists only the metadata field. -/
theorem c9_witness :
    attOut0.id = att0.id ∧
    attOut0.original_width_px = att0.original_width_px ∧
    attOut0.original_height_px = att0.original_height_px ∧
    attOut0.frames = att0.frames ∧
    attOut0.path_id = att0.path_id ∧
    att0.thumbnail_metadata.length + 2 = attOut0.thumbnail_metadata.length ∧
    ∀ ev ∈ (ensure_thumbnails env0 att0).events, ev.isPersist = true →
      ev = Event.persistMetadata att0.id attOut0.thumbnail_metadata
        ["thumbnail_metadata"] :=
  c9_persists_only_metadata env0 att0 attOut0 2 (by decide) (by decide)

/-- C10: a run that completes normally without deleting the attachment
grows `thumbnail_metadata` by exactly the returned count: every
pre-existing entry is preserved unchanged in its original position, and
the new entries are appended after them, in processing order matching
the needed-format sequence position by position. -/
theorem c10_metadata_append_only (env : PipelineEnv)
    (att att2 : ImageAttachment) (n : Nat)
    (h1 : (ensure_thumbnails env att).outcome = Except.ok n)
    (h2 : (ensure_thumbnails env att).attachment = some att2) :
    ∃ new : List StoredThumbnailFormat,
      att2.thumbnail_metadata = att.thumbnail_metadata ++ new ∧
      new.length = n ∧
      ∀ i (hi : i < new.length),
        ∃ hl : i < (missing_thumbnails env.catalogue att).length,
          matchesFormat new[i]
            (missing_thumbnails env.catalogue att)[i] = true := by
  obtain ⟨new, hmeta, hwrit, hlen, hok, hidx, evs, hev, hevp⟩ :=
    processFormats_extend env att (missing_thumbnails env.catalogue att)
      (initState att)
  have hmatch : ∀ i (hi : i < new.length),
      ∃ hl : i < (missing_thumbnails env.catalogue att).length,
        matchesFormat new[i]
          (missing_thumbnails env.catalogue att)[i] = true := by
    intro i hi
    obtain ⟨hl, img, ct, ha, hb, hc⟩ := hidx i hi
    refine ⟨hl, ?_⟩
    rw [hc]
    exact matchesFormat_storedOf _ ct img
  rcases ensure_thumbnails_cases env att with
    ⟨h0, hres⟩ | ⟨s, hout, hres⟩ | ⟨s, hout, hw0, hm0, hres⟩ |
    ⟨s, hout, hc, hres⟩ | ⟨e2, s, hout, hres⟩
  · rw [hres] at h1 h2
    simp only [Option.some.injEq] at h2
    simp only [Except.ok.injEq] at h1
    subst h2
    have hn0 : n = 0 := h1.symm
    subst hn0
    refine ⟨[], by simp, rfl, ?_⟩
    intro i hi
    simp at hi
  · rw [hout] at hmeta hwrit
    simp only [LoopOut.state, initState] at hmeta hwrit
    rw [hres] at h1 h2
    simp only [Option.some.injEq] at h2
    simp only [Except.ok.injEq] at h1
    subst h2
    exact ⟨new, hmeta, by omega, hmatch⟩
  · rw [hres] at h2
    simp at h2
  · rw [hout] at hmeta hwrit
    simp only [LoopOut.state, initState] at hmeta hwrit
    rw [hres] at h1 h2
    simp only [Option.some.injEq] at h2
    simp only [Except.ok.injEq] at h1
    subst h2
    exact ⟨new, hmeta, by omega, hmatch⟩
  · rw [hres] at h1
    simp at h1

/-- Witness for C10: the successful §8 run appends exactly 2 entries, one
per needed format, in order. -/
theorem c10_witness :
    ∃ new : List StoredThumbnailFormat,
      attOut0.thumbnail_metadata = att0.thumbnail_metadata ++ new ∧
      new.length = 2 ∧
      ∀ i (hi : i < new.length),
        ∃ hl : i < (missing_thumbnails env0.catalogue att0).length,
          matchesFormat new[i]
            (missing_thumbnails env0.catalogue att0)[i] = true :=
  c10_metadata_append_only env0 att0 attOut0 2 (by decide) (by decide)

/-- C6: the frame-load mode passed to the resize step is determined by the
source's frame count and the format's animated flag: single-frame sources
load the default frame (no load options), multi-frame sources load all
frames (`n=-1`) for animated formats and only the first frame (`n=1`) for
static formats. -/
theorem c6_frame_load_mode (frames : Nat) (f : ThumbnailFormat) :
    (frames ≤ 1 → loadOpts frames f = "") ∧
    (1 < frames → f.animated = true → loadOpts frames f = "n=-1") ∧
    (1 < frames → f.animated = false → loadOpts frames f = "n=1") := by
  unfold loadOpts
  refine ⟨fun h => ?_, fun h ha => ?_, fun h ha => ?_⟩
  · rw [if_neg (by omega)]
  · rw [if_pos h, ha]
    rfl
  · rw [if_pos h, ha]
    rfl

/-- Witness for C6: all three load modes at concrete inputs. -/
theorem c6_witness :
    loadOpts 1 fmtJpg = "" ∧ loadOpts 5 fmtWebp = "n=-1" ∧
    loadOpts 5 fmtJpg = "n=1" :=
  ⟨(c6_frame_load_mode 1 fmtJpg).1 (by decide),
   (c6_frame_load_mode 5 fmtWebp).2.1 (by decide) rfl,
   (c6_frame_load_mode 5 fmtJpg).2.2 (by decide) rfl⟩
